import Mathlib

set_option maxRecDepth 8192

/-!
Verification of the account-provisioning logic in
`google-daemon/usr/share/google/google_daemon/accounts.py`.

The Python module mutates two security-critical files: `/etc/sudoers`
(via `MakeUserSudoer`, guarded by the advisory lock marker
`/etc/sudoers.tmp`) and per-user `authorized_keys` files (via
`WriteAuthorizedSshKeysFile`).  The definitions below embed those
functions shallowly: file contents are lists of lines (strings as
produced by Python `readlines`, normally newline-terminated), the
filesystem state relevant to the sudoers editor is a `SudoState`, and
external collaborators (the sudoers policy checker, the possibility of
an I/O error on the rewrite) are oracle parameters.
-/

/-- Python `\s` for `str` patterns: the six ASCII whitespace characters. -/
def isPySpace (c : Char) : Bool :=
  c == ' ' || c == '\t' || c == '\n' || c == '\r' || c == '\x0b' || c == '\x0c'

/-- The first list is a leading segment of the second (character-list form
of Python `str.startswith`). -/
def charLead : List Char → List Char → Bool
  | [], _ => true
  | _ :: _, [] => false
  | c :: cs, d :: ds => c == d && charLead cs ds

/-- Python `s.startswith(t)`. -/
def strStartsWith (s t : String) : Bool :=
  charLead t.data s.data

/-- Embeds `accounts.EnsureTrailingNewline`: append a newline unless the line
already ends with one (Python `line.endswith('\n')`). -/
def EnsureTrailingNewline (line : String) : String :=
  if line.data.getLast? = some '\n' then line else line ++ "\n"

/-- Python `re.match(r'^%s\s+' % user, line)` on character lists, for the
usernames this module handles (characters in `[A-Za-z0-9._-]`): the
username is interpolated into the pattern unescaped, so each of its
characters is a literal atom except `.`, which matches any character
other than a newline; the trailing `\s+` requires at least one
whitespace character after the matched username characters. -/
def reMatchChars : List Char → List Char → Bool
  | [], [] => false
  | [], d :: _ => isPySpace d
  | _ :: _, [] => false
  | c :: cs, d :: ds => (if c == '.' then d != '\n' else c == d) && reMatchChars cs ds

/-- Embeds `accounts.IsUserSudoerInLines`: `filter(IsUserSudoerEntry, sudoer_lines)`
(a Python list, truthy iff non-empty). -/
def IsUserSudoerInLines (user : String) (sudoer_lines : List String) : List String :=
  sudoer_lines.filter (fun line => reMatchChars user.data line.data)

/-- Line begins with the literal username followed by at least one
whitespace character: the spec-side reading of the membership test
("a line beginning with `username` followed by whitespace"). -/
def literalUserThenSpace : List Char → List Char → Bool
  | [], [] => false
  | [], d :: _ => isPySpace d
  | _ :: _, [] => false
  | c :: cs, d :: ds => c == d && literalUserThenSpace cs ds

/-- Embeds `Accounts.VALID_USERNAME_CHARS`: `A`–`Z`, `a`–`z`, `0`–`9`, `_`, `-`, `.`. -/
def VALID_USERNAME_CHARS : List Char :=
  (List.range 26).map (fun i => Char.ofNat (65 + i)) ++
  (List.range 26).map (fun i => Char.ofNat (97 + i)) ++
  (List.range 10).map (fun i => Char.ofNat (48 + i)) ++
  ['_', '-', '.']

/-- Embeds `Accounts.IsValidUsername`: reject when some character falls outside
`VALID_USERNAME_CHARS` (Python truthiness of `filter`), reject names
starting with `-`, accept otherwise. -/
def IsValidUsername (username : String) : Bool :=
  if username.data.filter (fun c => !(VALID_USERNAME_CHARS.contains c)) ≠ [] then
    false
  else if strStartsWith username "-" then
    false
  else
    true

/-- The OS-adapter facts `CreateUser` consults: whether `pwd.getpwnam`
finds the user before provisioning, and whether `system.UserAdd`
succeeds in creating it. -/
structure OsEnv where
  userFound : Bool
  userAddWorks : Bool
deriving DecidableEq

/-- The observable steps of `Accounts.CreateUser`. -/
inductive ProvisionAction where
  | warnedInvalidUsername
  | checkedAccountPresence
  | ranUserAdd
  | ranMakeUserSudoer
  | ranAuthorizeSshKeys
deriving DecidableEq

/-- Embeds `Accounts.CreateUser`: validate the name, create the account when
absent, and when the account exists afterwards grant sudo and install
the SSH keys. -/
def CreateUser (env : OsEnv) (username : String) : List ProvisionAction :=
  if IsValidUsername username = false then
    [ProvisionAction.warnedInvalidUsername]
  else
    (if env.userFound = false then
      [ProvisionAction.checkedAccountPresence, ProvisionAction.ranUserAdd]
    else
      [ProvisionAction.checkedAccountPresence]) ++
    (if env.userFound || env.userAddWorks then
      [ProvisionAction.ranMakeUserSudoer, ProvisionAction.ranAuthorizeSshKeys]
    else
      [])

/-- Embeds `Accounts.LockSudoers`: `os.open('/etc/sudoers.tmp', O_EXCL|O_CREAT)`,
returning `(acquired, marker-present-after)`; with the marker already
present the exclusive create fails with `EEXIST` and the call reports
failure. -/
def LockSudoers (markerPresent : Bool) : Bool × Bool :=
  if markerPresent then (false, true) else (true, true)

/-- Outcome of `os.unlink` on the lock marker path. -/
inductive UnlinkOutcome where
  | ok
  | enoent
deriving DecidableEq

/-- Embeds `os.unlink('/etc/sudoers.tmp')`: succeeds when the marker is present,
raises `ENOENT` when it is absent; the marker is gone afterwards either
way. -/
def unlinkLockMarker (markerPresent : Bool) : UnlinkOutcome × Bool :=
  if markerPresent then (UnlinkOutcome.ok, false) else (UnlinkOutcome.enoent, false)

/-- Embeds `Accounts.UnlockSudoers`: unlink the marker, treating `ENOENT` as
success; returns `(reported-success, marker-present-after)`. -/
def UnlockSudoers (markerPresent : Bool) : Bool × Bool :=
  match unlinkLockMarker markerPresent with
  | (UnlinkOutcome.ok, present) => (true, present)
  | (UnlinkOutcome.enoent, present) => (true, present)

/-- External collaborators of `MakeUserSudoer`: the syntax checker
`system.IsValidSudoersFile` (applied to the candidate content written to
the temporary file) and whether `OpenFile('/etc/sudoers', 'w')` raises
an `IOError`/`OSError`. -/
structure SudoersEnv where
  isValidSudoersFile : List String → Bool
  openForWriteRaises : Bool

/-- The sudoers-relevant filesystem state: the content of `/etc/sudoers`
(`none` when the file is absent) and the presence of the lock marker. -/
structure SudoState where
  sudoers : Option (List String)
  lock : Bool
deriving DecidableEq

/-- Filesystem-visible steps taken by `MakeUserSudoer`. -/
inductive SudoEvent where
  | readSudoers
  | lockAcquired
  | lockFailed
  | tempWritten (content : List String)
  | validated (ok : Bool)
  | chmodSudoers
  | openTruncate
  | wroteSudoers (content : List String)
  | tempUnlinked
  | unlocked
deriving DecidableEq

/-- Events that mutate `/etc/sudoers` itself (its mode or its content). -/
def SudoEvent.isSudoersWrite : SudoEvent → Bool
  | SudoEvent.chmodSudoers => true
  | SudoEvent.openTruncate => true
  | SudoEvent.wroteSudoers _ => true
  | _ => false

/-- The rule appended by `MakeUserSudoer`: `'%s ALL=NOPASSWD: ALL' % user`. -/
def sudoerRuleLine (user : String) : String :=
  user ++ " ALL=NOPASSWD: ALL"

/-- The candidate content `MakeUserSudoer` builds: the current lines plus
the new rule, every line newline-normalized. -/
def sudoersCandidate (user : String) (lines : List String) : List String :=
  (lines ++ [sudoerRuleLine user]).map EnsureTrailingNewline

/-- Result of one `MakeUserSudoer` call: final state, event trace, and the
contents of `/etc/sudoers` at the observation points of the call (before
the critical section, after the truncating open when one happens, after
the rewrite). -/
structure SudoRun where
  state : SudoState
  events : List SudoEvent
  obs : List (Option (List String))
deriving DecidableEq

/-- Embeds `Accounts.MakeUserSudoer`, run sequentially (the re-read under the
lock returns the same content).  Branches, in source order: missing
`/etc/sudoers`; rule already present before locking; lock contention;
rule already present on the re-read; candidate rejected by
`IsValidSudoersFile`; `OpenFile('/etc/sudoers', 'w')` raising (caught by
the outer `except`); and the successful rewrite, which `chmod`s the live
file, opens it with mode `'w'` (truncating it in place) and writes the
candidate lines.  The `finally` blocks unlink the temporary file and
remove the lock marker on every path that acquired it. -/
def MakeUserSudoer (env : SudoersEnv) (user : String) (st : SudoState) : SudoRun :=
  match st.sudoers with
  | none => ⟨st, [], [st.sudoers]⟩
  | some lines =>
    if (IsUserSudoerInLines user lines).isEmpty = false then
      ⟨st, [SudoEvent.readSudoers], [some lines]⟩
    else if (LockSudoers st.lock).1 = false then
      ⟨st, [SudoEvent.readSudoers, SudoEvent.lockFailed], [some lines]⟩
    else if (IsUserSudoerInLines user lines).isEmpty = false then
      ⟨⟨some lines, false⟩,
       [SudoEvent.readSudoers, SudoEvent.lockAcquired, SudoEvent.readSudoers,
        SudoEvent.unlocked],
       [some lines, some lines]⟩
    else if env.isValidSudoersFile (sudoersCandidate user lines) = false then
      ⟨⟨some lines, false⟩,
       [SudoEvent.readSudoers, SudoEvent.lockAcquired, SudoEvent.readSudoers,
        SudoEvent.tempWritten (sudoersCandidate user lines),
        SudoEvent.validated false, SudoEvent.tempUnlinked, SudoEvent.unlocked],
       [some lines, some lines]⟩
    else if env.openForWriteRaises then
      ⟨⟨some lines, false⟩,
       [SudoEvent.readSudoers, SudoEvent.lockAcquired, SudoEvent.readSudoers,
        SudoEvent.tempWritten (sudoersCandidate user lines),
        SudoEvent.validated true, SudoEvent.chmodSudoers,
        SudoEvent.tempUnlinked, SudoEvent.unlocked],
       [some lines, some lines]⟩
    else
      ⟨⟨some (sudoersCandidate user lines), false⟩,
       [SudoEvent.readSudoers, SudoEvent.lockAcquired, SudoEvent.readSudoers,
        SudoEvent.tempWritten (sudoersCandidate user lines),
        SudoEvent.validated true, SudoEvent.chmodSudoers, SudoEvent.openTruncate,
        SudoEvent.wroteSudoers (sudoersCandidate user lines),
        SudoEvent.tempUnlinked, SudoEvent.unlocked],
       [some lines, some [], some (sudoersCandidate user lines)]⟩

/-- The managed-entry marker comment written by the module. -/
def googleMarker : String := "# Added by Google"

/-- The marker test applied to existing lines:
`lines[i].startswith('# Added by Google')`. -/
def isGoogleMarkerLine (line : String) : Bool :=
  strStartsWith line googleMarker

/-- Embeds `google_added_ixs`, first pass: indices `i < len(lines) - 1` whose
line starts with the marker. -/
def googleAddedIxs (lines : List String) : List Nat :=
  (List.range (lines.length - 1)).filter (fun i => isGoogleMarkerLine (lines.getD i ""))

/-- Embeds `google_added_ixs` after
`google_added_ixs += [i + 1 for i in google_added_ixs]`. -/
def googleAddedIxsFull (lines : List String) : List Nat :=
  googleAddedIxs lines ++ (googleAddedIxs lines).map (fun i => i + 1)

/-- Embeds `user_lines`: the lines whose index is not in `google_added_ixs`, in
their original order. -/
def userLines (lines : List String) : List String :=
  ((List.range lines.length).filter
    (fun i => !((googleAddedIxsFull lines).contains i))).map (fun i => lines.getD i "")

/-- Embeds `Accounts.WriteAuthorizedSshKeysFile`: the content of the replacement
file, given the old file's lines (`none` when the file is absent) and the
new key list — the preserved user lines, newline-normalized, then for
each key the marker line followed by the newline-normalized key. -/
def WriteAuthorizedSshKeysFile (oldFile : Option (List String)) (ssh_keys : List String) :
    List String :=
  (userLines (oldFile.getD [])).map EnsureTrailingNewline ++
    ssh_keys.flatMap (fun k => ["# Added by Google\n", EnsureTrailingNewline k])

/-- A structural view of an authorized-keys file: unmanaged user lines and
managed `(marker, key)` pairs. -/
inductive AkEntry where
  | unmanaged (line : String)
  | managed (key : String)

/-- The lines an entry occupies in the file. -/
def renderEntry : AkEntry → List String
  | AkEntry.unmanaged l => [l]
  | AkEntry.managed k => ["# Added by Google\n", k]

/-- The file built from a sequence of entries. -/
def renderFile (entries : List AkEntry) : List String :=
  entries.flatMap renderEntry

/-- The unmanaged lines of a sequence of entries, in order. -/
def unmanagedLines (entries : List AkEntry) : List String :=
  entries.filterMap (fun e => match e with
    | AkEntry.unmanaged l => some l
    | AkEntry.managed _ => none)

/-- Benign entries: no unmanaged line or stored key itself begins with the
marker text, and unmanaged lines are newline-terminated. -/
def entryOk : AkEntry → Bool
  | AkEntry.unmanaged l => !(isGoogleMarkerLine l) && l.data.getLast? == some '\n'
  | AkEntry.managed k => !(isGoogleMarkerLine k)

example : IsValidUsername "" = true := by decide
example : IsValidUsername "alice" = true := by decide
example : IsValidUsername "-x" = false := by decide
example : IsValidUsername "a/b" = false := by decide
example : IsUserSudoerInLines "a.c" ["abc x\n"] ≠ [] := by decide
example : IsUserSudoerInLines "u" ["root ALL=(ALL) ALL\n"] = [] := by decide
example : userLines ["# Added by Google me\n", "k\n"] = [] := by decide
example : userLines ["x\n", "# Added by Google\n"] = ["x\n", "# Added by Google\n"] := by decide
example : userLines ["# Added by Google\n", "k\n", "z\n"] = ["z\n"] := by decide
example : WriteAuthorizedSshKeysFile (some ["# Added by Google\n", "# Added by Google X\n", "z\n"]) [] = [] := by decide

/-! ### Helper lemmas -/

theorem charLead_single (c : Char) (l : List Char) :
    charLead [c] l = true ↔ l.head? = some c := by
  cases l with
  | nil => simp [charLead]
  | cons d ds =>
    have h1 : charLead [c] (d :: ds) = (c == d && charLead [] ds) := rfl
    have h2 : charLead ([] : List Char) ds = true := rfl
    rw [h1, h2, Bool.and_true]
    simp only [List.head?_cons, Option.some.injEq, beq_iff_eq]
    exact ⟨fun h => h.symm, fun h => h.symm⟩

theorem reMatch_eq_literal (us : List Char) (hnodot : '.' ∉ us) (ds : List Char) :
    reMatchChars us ds = literalUserThenSpace us ds := by
  induction us generalizing ds with
  | nil => cases ds <;> rfl
  | cons c cs ih =>
    have hc : (c == '.') = false := by
      simp only [List.mem_cons, not_or] at hnodot
      exact beq_eq_false_iff_ne.mpr (fun h => hnodot.1 h.symm)
    have hcs : '.' ∉ cs := by
      simp only [List.mem_cons, not_or] at hnodot
      exact hnodot.2
    cases ds with
    | nil => rfl
    | cons d ds' =>
      simp [reMatchChars, literalUserThenSpace, hc, ih hcs]

theorem literal_iff (us : List Char) (ds : List Char) :
    literalUserThenSpace us ds = true ↔
      ∃ d tail, ds = us ++ d :: tail ∧ isPySpace d = true := by
  induction us generalizing ds with
  | nil =>
    cases ds with
    | nil => simp [literalUserThenSpace]
    | cons d ds' =>
      simp only [literalUserThenSpace, List.nil_append]
      constructor
      · intro h
        exact ⟨d, ds', rfl, h⟩
      · rintro ⟨e, tail, heq, hsp⟩
        cases heq
        exact hsp
  | cons c cs ih =>
    cases ds with
    | nil => simp [literalUserThenSpace]
    | cons d ds' =>
      simp only [literalUserThenSpace, Bool.and_eq_true, beq_iff_eq, ih, List.cons_append,
        List.cons.injEq]
      constructor
      · rintro ⟨hcd, e, tail, heq, hsp⟩
        exact ⟨e, tail, ⟨hcd.symm, heq⟩, hsp⟩
      · rintro ⟨e, tail, ⟨hdc, heq⟩, hsp⟩
        exact ⟨hdc.symm, e, tail, heq, hsp⟩

/-! ### Claim theorems -/

/-- C9: `IsValidUsername` accepts exactly the strings whose characters all
lie in `VALID_USERNAME_CHARS` and whose first character is not `-`. -/
theorem IsValidUsername_charset (s : String) :
    IsValidUsername s = true ↔
      ((∀ c ∈ s.data, c ∈ VALID_USERNAME_CHARS) ∧ s.data.head? ≠ some '-') := by
  have hfil : (s.data.filter (fun c => !(VALID_USERNAME_CHARS.contains c)) = []) ↔
      (∀ c ∈ s.data, c ∈ VALID_USERNAME_CHARS) := by
    rw [List.filter_eq_nil_iff]
    constructor
    · intro h c hc
      have h2 := h c hc
      rw [Bool.not_eq_true, Bool.not_eq_false'] at h2
      exact List.elem_iff.mp h2
    · intro h c hc
      rw [Bool.not_eq_true, Bool.not_eq_false']
      exact List.elem_iff.mpr (h c hc)
  have hdash : (strStartsWith s "-" = true) ↔ s.data.head? = some '-' := by
    have hd : "-".data = ['-'] := rfl
    rw [strStartsWith, hd]
    exact charLead_single '-' s.data
  constructor
  · intro hv
    by_cases h1 : s.data.filter (fun c => !(VALID_USERNAME_CHARS.contains c)) = []
    · refine ⟨hfil.mp h1, ?_⟩
      intro hh
      have h2 : strStartsWith s "-" = true := hdash.mpr hh
      unfold IsValidUsername at hv
      rw [if_neg (fun hne => hne h1), if_pos h2] at hv
      exact Bool.false_ne_true hv
    · exfalso
      unfold IsValidUsername at hv
      rw [if_pos h1] at hv
      exact Bool.false_ne_true hv
  · rintro ⟨hall, hhd⟩
    have h1 : s.data.filter (fun c => !(VALID_USERNAME_CHARS.contains c)) = [] :=
      hfil.mpr hall
    unfold IsValidUsername
    rw [if_neg (fun hne => hne h1), if_neg (fun h2 => hhd (hdash.mp h2))]

/-- C10: the empty username passes validation, so `CreateUser` with an
empty name is not rejected and proceeds through the account-existence
check to the account-creation path. -/
theorem IsValidUsername_empty_accepted :
    IsValidUsername "" = true ∧
    CreateUser ⟨false, true⟩ "" =
      [ProvisionAction.checkedAccountPresence, ProvisionAction.ranUserAdd,
       ProvisionAction.ranMakeUserSudoer, ProvisionAction.ranAuthorizeSshKeys] := by
  decide

/-- C2: if the policy checker rejects the candidate content, the live
sudoers file is unchanged by `MakeUserSudoer`. -/
theorem MakeUserSudoer_validation_gate (env : SudoersEnv) (user : String) (st : SudoState)
    (h : env.isValidSudoersFile (sudoersCandidate user (st.sudoers.getD [])) = false) :
    (MakeUserSudoer env user st).state.sudoers = st.sudoers := by
  obtain ⟨sud, lock⟩ := st
  cases sud with
  | none => rfl
  | some lines =>
    simp only [Option.getD_some] at h
    simp only [MakeUserSudoer, h]
    split
    · rfl
    · split
      · rfl
      · split
        · rfl
        · simp_all

/-- C2 witness. -/
theorem MakeUserSudoer_validation_gate_witness :
    (SudoersEnv.mk (fun _ => false) false).isValidSudoersFile
      (sudoersCandidate "u" ((some ["x\n"] : Option (List String)).getD [])) = false ∧
    (MakeUserSudoer ⟨fun _ => false, false⟩ "u" ⟨some ["x\n"], false⟩).state.sudoers =
      (SudoState.mk (some ["x\n"]) false).sudoers :=
  ⟨rfl, MakeUserSudoer_validation_gate ⟨fun _ => false, false⟩ "u" ⟨some ["x\n"], false⟩ rfl⟩

/-- C5: with the lock marker already present, `MakeUserSudoer` leaves the
whole sudoers state unchanged and its trace contains no write to the
sudoers file. -/
theorem MakeUserSudoer_lock_held_frame (env : SudoersEnv) (user : String) (st : SudoState)
    (h : st.lock = true) :
    (MakeUserSudoer env user st).state = st ∧
    (MakeUserSudoer env user st).events.all (fun e => !SudoEvent.isSudoersWrite e) = true := by
  obtain ⟨sud, lock⟩ := st
  simp only at h
  subst h
  cases sud with
  | none => exact ⟨rfl, rfl⟩
  | some lines =>
    by_cases hm : (IsUserSudoerInLines user lines).isEmpty = false
    · simp [MakeUserSudoer, hm, SudoEvent.isSudoersWrite]
    · simp [MakeUserSudoer, hm, LockSudoers, SudoEvent.isSudoersWrite]

/-- C5 witness. -/
theorem MakeUserSudoer_lock_held_frame_witness :
    (SudoState.mk (some ["x\n"]) true).lock = true ∧
    ((MakeUserSudoer ⟨fun _ => true, false⟩ "u" ⟨some ["x\n"], true⟩).state =
        (SudoState.mk (some ["x\n"]) true) ∧
      (MakeUserSudoer ⟨fun _ => true, false⟩ "u" ⟨some ["x\n"], true⟩).events.all
        (fun e => !SudoEvent.isSudoersWrite e) = true) :=
  ⟨rfl, MakeUserSudoer_lock_held_frame ⟨fun _ => true, false⟩ "u" ⟨some ["x\n"], true⟩ rfl⟩

/-- C8: every execution of `MakeUserSudoer` that acquires the lock marker
ends with the unlock step and leaves the marker absent, and
`UnlockSudoers` reports success and removes the marker whether or not it
is still present (`ENOENT` counts as success). -/
theorem MakeUserSudoer_lock_released (env : SudoersEnv) (user : String) (st : SudoState)
    (h : SudoEvent.lockAcquired ∈ (MakeUserSudoer env user st).events) :
    (MakeUserSudoer env user st).events.getLast? = some SudoEvent.unlocked ∧
    (MakeUserSudoer env user st).state.lock = false ∧
    (∀ b, UnlockSudoers b = (true, false)) := by
  obtain ⟨sud, lock⟩ := st
  cases sud with
  | none => simp [MakeUserSudoer] at h
  | some lines =>
    by_cases h1 : (IsUserSudoerInLines user lines).isEmpty = false
    · simp [MakeUserSudoer, h1] at h
    · by_cases h2 : (LockSudoers lock).1 = false
      · simp [MakeUserSudoer, h1, h2] at h
      · by_cases h3 : env.isValidSudoersFile (sudoersCandidate user lines) = false
        · simp only [MakeUserSudoer, h1, h2, h3, if_false, if_true]
          exact ⟨rfl, rfl, fun b => by cases b <;> rfl⟩
        · by_cases h4 : env.openForWriteRaises
          · simp only [MakeUserSudoer, h1, h2, h3, h4, if_false, if_true]
            exact ⟨rfl, rfl, fun b => by cases b <;> rfl⟩
          · simp only [MakeUserSudoer, h1, h2, h3, h4, if_false, if_true]
            exact ⟨rfl, rfl, fun b => by cases b <;> rfl⟩

/-- C8 witness. -/
theorem MakeUserSudoer_lock_released_witness :
    SudoEvent.lockAcquired ∈
      (MakeUserSudoer ⟨fun _ => true, false⟩ "u" ⟨some ["root x\n"], false⟩).events ∧
    ((MakeUserSudoer ⟨fun _ => true, false⟩ "u" ⟨some ["root x\n"], false⟩).events.getLast? =
        some SudoEvent.unlocked ∧
      (MakeUserSudoer ⟨fun _ => true, false⟩ "u" ⟨some ["root x\n"], false⟩).state.lock = false ∧
      (∀ b, UnlockSudoers b = (true, false))) :=
  ⟨by decide,
   MakeUserSudoer_lock_released ⟨fun _ => true, false⟩ "u" ⟨some ["root x\n"], false⟩ (by decide)⟩

/-- C1 counterexample: on a successful grant the live sudoers file passes
through an observation point where its content is empty — neither the
full before-state nor the full after-state — because the code truncates
`/etc/sudoers` in place with `OpenFile('/etc/sudoers', 'w')` instead of
renaming the validated temporary file over it. -/
theorem MakeUserSudoer_intermediate_truncation_cex :
    some ([] : List String) ∈
      (MakeUserSudoer ⟨fun _ => true, false⟩ "u" ⟨some ["root ALL=(ALL) ALL\n"], false⟩).obs ∧
    some ([] : List String) ≠ (some ["root ALL=(ALL) ALL\n"] : Option (List String)) ∧
    some ([] : List String) ≠
      (MakeUserSudoer ⟨fun _ => true, false⟩ "u" ⟨some ["root ALL=(ALL) ALL\n"], false⟩).state.sudoers ∧
    SudoEvent.openTruncate ∈
      (MakeUserSudoer ⟨fun _ => true, false⟩ "u" ⟨some ["root ALL=(ALL) ALL\n"], false⟩).events ∧
    (MakeUserSudoer ⟨fun _ => true, false⟩ "u" ⟨some ["root ALL=(ALL) ALL\n"], false⟩).state.sudoers ≠
      (some ["root ALL=(ALL) ALL\n"] : Option (List String)) := by
  decide

/-- C1 (amended): `MakeUserSudoer` writes new content to the live sudoers
file in place, not by rename: on the successful path it validates the
candidate via the temporary file, `chmod`s the live file, opens it with
mode `'w'` (an observation point at which the live file is empty) and
rewrites it with the full candidate; the temporary file is only
unlinked. -/
theorem MakeUserSudoer_in_place_overwrite (env : SudoersEnv) (user : String) (lines : List String)
    (hmem : IsUserSudoerInLines user lines = [])
    (hvalid : env.isValidSudoersFile (sudoersCandidate user lines) = true)
    (hraise : env.openForWriteRaises = false) :
    MakeUserSudoer env user ⟨some lines, false⟩ =
      ⟨⟨some (sudoersCandidate user lines), false⟩,
       [SudoEvent.readSudoers, SudoEvent.lockAcquired, SudoEvent.readSudoers,
        SudoEvent.tempWritten (sudoersCandidate user lines),
        SudoEvent.validated true, SudoEvent.chmodSudoers, SudoEvent.openTruncate,
        SudoEvent.wroteSudoers (sudoersCandidate user lines),
        SudoEvent.tempUnlinked, SudoEvent.unlocked],
       [some lines, some [], some (sudoersCandidate user lines)]⟩ := by
  simp [MakeUserSudoer, hmem, hvalid, hraise, LockSudoers]

/-- C1 witness. -/
theorem MakeUserSudoer_in_place_overwrite_witness :
    IsUserSudoerInLines "u" ["root ALL=(ALL) ALL\n"] = [] ∧
    (SudoersEnv.mk (fun _ => true) false).isValidSudoersFile
      (sudoersCandidate "u" ["root ALL=(ALL) ALL\n"]) = true ∧
    (SudoersEnv.mk (fun _ => true) false).openForWriteRaises = false ∧
    MakeUserSudoer ⟨fun _ => true, false⟩ "u" ⟨some ["root ALL=(ALL) ALL\n"], false⟩ =
      ⟨⟨some (sudoersCandidate "u" ["root ALL=(ALL) ALL\n"]), false⟩,
       [SudoEvent.readSudoers, SudoEvent.lockAcquired, SudoEvent.readSudoers,
        SudoEvent.tempWritten (sudoersCandidate "u" ["root ALL=(ALL) ALL\n"]),
        SudoEvent.validated true, SudoEvent.chmodSudoers, SudoEvent.openTruncate,
        SudoEvent.wroteSudoers (sudoersCandidate "u" ["root ALL=(ALL) ALL\n"]),
        SudoEvent.tempUnlinked, SudoEvent.unlocked],
       [some ["root ALL=(ALL) ALL\n"], some [],
        some (sudoersCandidate "u" ["root ALL=(ALL) ALL\n"])]⟩ :=
  ⟨by decide, rfl, rfl,
   MakeUserSudoer_in_place_overwrite ⟨fun _ => true, false⟩ "u" ["root ALL=(ALL) ALL\n"]
     (by decide) rfl rfl⟩

/-- C6 counterexample: for the valid username `a.c` the membership test
reports an existing rule over the single line `"abc x\n"`, although no
line begins with the literal string `a.c` followed by whitespace — the
unescaped `.` in the interpolated regex matches any character. -/
theorem IsUserSudoerInLines_dot_wildcard_cex :
    (IsUserSudoerInLines "a.c" ["abc x\n"]).isEmpty = false ∧
    literalUserThenSpace "a.c".data "abc x\n".data = false ∧
    IsValidUsername "a.c" = true := by
  decide

/-- C6 (amended): for valid usernames containing no `.`, the membership
test reports an existing rule iff some line begins with the literal
username followed by a whitespace character (for usernames with `.`, the
dot matches any non-newline character instead). -/
theorem IsUserSudoerInLines_literal_iff (user : String) (lines : List String)
    (hchars : ∀ c ∈ user.data, c ∈ VALID_USERNAME_CHARS)
    (hnodot : '.' ∉ user.data) :
    ((IsUserSudoerInLines user lines).isEmpty = false) ↔
      ∃ l ∈ lines, ∃ d tail, l.data = user.data ++ d :: tail ∧ isPySpace d = true := by
  rw [IsUserSudoerInLines, List.isEmpty_eq_false]
  rw [Ne, List.filter_eq_nil_iff]
  push_neg
  constructor
  · rintro ⟨l, hl, hm⟩
    rw [reMatch_eq_literal user.data hnodot l.data] at hm
    exact ⟨l, hl, (literal_iff user.data l.data).mp hm⟩
  · rintro ⟨l, hl, d, tail, heq, hsp⟩
    refine ⟨l, hl, ?_⟩
    rw [reMatch_eq_literal user.data hnodot l.data]
    exact (literal_iff user.data l.data).mpr ⟨d, tail, heq, hsp⟩

/-- C6 witness. -/
theorem IsUserSudoerInLines_literal_iff_witness :
    (∀ c ∈ "alice".data, c ∈ VALID_USERNAME_CHARS) ∧ '.' ∉ "alice".data ∧
    (((IsUserSudoerInLines "alice" ["alice ALL=NOPASSWD: ALL\n"]).isEmpty = false) ↔
      ∃ l ∈ ["alice ALL=NOPASSWD: ALL\n"], ∃ d tail,
        l.data = "alice".data ++ d :: tail ∧ isPySpace d = true) :=
  ⟨by decide, by decide,
   IsUserSudoerInLines_literal_iff "alice" ["alice ALL=NOPASSWD: ALL\n"] (by decide) (by decide)⟩

theorem mem_googleAddedIxs (lines : List String) (i : Nat) :
    i ∈ googleAddedIxs lines ↔
      (i + 1 < lines.length ∧ isGoogleMarkerLine (lines.getD i "") = true) := by
  simp only [googleAddedIxs, List.mem_filter, List.mem_range]
  constructor
  · rintro ⟨h1, h2⟩
    exact ⟨by omega, h2⟩
  · rintro ⟨h1, h2⟩
    exact ⟨by omega, h2⟩

theorem mem_googleAddedIxsFull (lines : List String) (i : Nat) :
    i ∈ googleAddedIxsFull lines ↔
      ((i + 1 < lines.length ∧ isGoogleMarkerLine (lines.getD i "") = true) ∨
       (0 < i ∧ i < lines.length ∧ isGoogleMarkerLine (lines.getD (i - 1) "") = true)) := by
  simp only [googleAddedIxsFull, List.mem_append, List.mem_map, mem_googleAddedIxs]
  constructor
  · rintro (h | ⟨j, ⟨hj1, hj2⟩, rfl⟩)
    · exact Or.inl h
    · refine Or.inr ⟨by omega, by omega, ?_⟩
      simpa [Nat.add_sub_cancel] using hj2
  · rintro (h | ⟨h0, hlen, hP⟩)
    · exact Or.inl h
    · refine Or.inr ⟨i - 1, ⟨by omega, hP⟩, by omega⟩

theorem filterRange_map_getD_sublist {α : Type} (l : List α) (d : α) (p : Nat → Bool) :
    (((List.range l.length).filter p).map (fun i => l.getD i d)).Sublist l := by
  induction l generalizing p with
  | nil => simp
  | cons x xs ih =>
    have hrange : List.range (x :: xs).length = 0 :: (List.range xs.length).map Nat.succ := by
      rw [List.length_cons, List.range_succ_eq_map]
    rw [hrange]
    by_cases hp : p 0 = true
    · rw [List.filter_cons_of_pos hp, List.map_cons, List.filter_map, List.map_map]
      exact List.Sublist.cons₂ x (ih (fun i => p (Nat.succ i)))
    · rw [List.filter_cons_of_neg (by simpa using hp), List.filter_map, List.map_map]
      exact List.Sublist.cons x (ih (fun i => p (Nat.succ i)))

/-- C7 counterexample: the line `"# Added by Google me\n"` does not
exactly match the managed-marker comment line, yet it and the line after
it are excluded from the preserved output, because the code classifies
by `startswith('# Added by Google')` (prefix match), not by exact
equality. -/
theorem userLines_marker_named_cex :
    userLines ["# Added by Google me\n", "k\n"] = [] ∧
    ("# Added by Google me\n" : String) ≠ "# Added by Google\n" ∧
    ("# Added by Google me\n" : String) ≠ "# Added by Google" := by
  decide

/-- C7 (amended): a line of the existing file is excluded from the
preserved output iff it is a non-final line *beginning with* the
managed-marker text, or it immediately follows such a line; the
preserved lines are a sublist of the original lines (verbatim, original
order), and in particular a marker line that is the final line is kept
unless it follows a non-final marker line. -/
theorem userLines_excluded_iff (lines : List String) :
    (userLines lines).Sublist lines ∧
    ∀ i, i < lines.length →
      ((googleAddedIxsFull lines).contains i = true ↔
        ((i + 1 < lines.length ∧ strStartsWith (lines.getD i "") googleMarker = true) ∨
         (0 < i ∧ strStartsWith (lines.getD (i - 1) "") googleMarker = true))) := by
  constructor
  · exact filterRange_map_getD_sublist lines "" _
  · intro i hi
    rw [List.elem_iff, mem_googleAddedIxsFull]
    constructor
    · rintro (h | ⟨h0, _, hP⟩)
      · exact Or.inl h
      · exact Or.inr ⟨h0, hP⟩
    · rintro (h | ⟨h0, hP⟩)
      · exact Or.inl h
      · exact Or.inr ⟨h0, hi, hP⟩

/-- C7 witness. -/
theorem userLines_excluded_iff_witness :
    (userLines ["x\n", "# Added by Google\n", "k\n", "# Added by Google\n"]).Sublist
      ["x\n", "# Added by Google\n", "k\n", "# Added by Google\n"] ∧
    (3 < (["x\n", "# Added by Google\n", "k\n", "# Added by Google\n"] : List String).length ∧
      ((googleAddedIxsFull ["x\n", "# Added by Google\n", "k\n", "# Added by Google\n"]).contains 3 = true ↔
        ((3 + 1 < (["x\n", "# Added by Google\n", "k\n", "# Added by Google\n"] : List String).length ∧
          strStartsWith ((["x\n", "# Added by Google\n", "k\n", "# Added by Google\n"] : List String).getD 3 "")
            googleMarker = true) ∨
         (0 < 3 ∧
          strStartsWith ((["x\n", "# Added by Google\n", "k\n", "# Added by Google\n"] : List String).getD (3 - 1) "")
            googleMarker = true)))) :=
  ⟨(userLines_excluded_iff ["x\n", "# Added by Google\n", "k\n", "# Added by Google\n"]).1,
   by decide,
   (userLines_excluded_iff ["x\n", "# Added by Google\n", "k\n", "# Added by Google\n"]).2 3
     (by decide)⟩

theorem contains_eq_of_mem_iff {a b : Nat} {l1 l2 : List Nat} (h : a ∈ l1 ↔ b ∈ l2) :
    l1.contains a = l2.contains b := by
  rw [Bool.eq_iff_iff, List.elem_iff, List.elem_iff]
  exact h

theorem contains_eq_false_of_not_mem {a : Nat} {l : List Nat} (h : a ∉ l) :
    l.contains a = false := by
  rw [Bool.eq_false_iff]
  intro hc
  exact h (List.elem_iff.mp hc)

theorem contains_eq_true_of_mem {a : Nat} {l : List Nat} (h : a ∈ l) :
    l.contains a = true :=
  List.elem_iff.mpr h

theorem userLines_cons_keep (l : String) (ls : List String)
    (h0 : (googleAddedIxsFull (l :: ls)).contains 0 = false) :
    userLines (l :: ls) =
      l :: ((List.range ls.length).filter
        (fun i => !((googleAddedIxsFull (l :: ls)).contains (i + 1)))).map
        (fun i => ls.getD i "") := by
  unfold userLines
  rw [show List.range (l :: ls).length = 0 :: (List.range ls.length).map Nat.succ from by
    rw [List.length_cons, List.range_succ_eq_map]]
  rw [List.filter_cons_of_pos
    (by show (!((googleAddedIxsFull (l :: ls)).contains 0)) = true; rw [h0]; rfl),
    List.map_cons, List.filter_map, List.map_map]
  rfl

theorem userLines_cons_drop (l : String) (ls : List String)
    (h0 : (googleAddedIxsFull (l :: ls)).contains 0 = true) :
    userLines (l :: ls) =
      ((List.range ls.length).filter
        (fun i => !((googleAddedIxsFull (l :: ls)).contains (i + 1)))).map
        (fun i => ls.getD i "") := by
  unfold userLines
  rw [show List.range (l :: ls).length = 0 :: (List.range ls.length).map Nat.succ from by
    rw [List.length_cons, List.range_succ_eq_map]]
  rw [List.filter_cons_of_neg
    (by show ¬((!((googleAddedIxsFull (l :: ls)).contains 0)) = true); rw [h0]; decide),
    List.filter_map, List.map_map]
  rfl

theorem contains_succ_of_head_not_marker (l : String) (ls : List String) (i : Nat)
    (hP : isGoogleMarkerLine l = false) :
    (googleAddedIxsFull (l :: ls)).contains (i + 1) = (googleAddedIxsFull ls).contains i := by
  apply contains_eq_of_mem_iff
  rw [mem_googleAddedIxsFull, mem_googleAddedIxsFull]
  simp only [List.length_cons, List.getD_cons_succ, Nat.add_sub_cancel]
  constructor
  · rintro (⟨h1, h2⟩ | ⟨h1, h2, h3⟩)
    · exact Or.inl ⟨by omega, h2⟩
    · cases i with
      | zero =>
        rw [List.getD_cons_zero, hP] at h3
        exact absurd h3 (by simp)
      | succ j =>
        rw [List.getD_cons_succ] at h3
        exact Or.inr ⟨by omega, by omega, by simpa [Nat.add_sub_cancel] using h3⟩
  · rintro (⟨h1, h2⟩ | ⟨h1, h2, h3⟩)
    · exact Or.inl ⟨by omega, h2⟩
    · obtain ⟨j, rfl⟩ : ∃ j, i = j + 1 := ⟨i - 1, by omega⟩
      refine Or.inr ⟨by omega, by omega, ?_⟩
      rw [List.getD_cons_succ]
      simpa [Nat.add_sub_cancel] using h3

theorem contains_succ_succ_pair (m k : String) (rest : List String) (j : Nat)
    (hk : isGoogleMarkerLine k = false) :
    (googleAddedIxsFull (m :: k :: rest)).contains (j + 1 + 1) =
      (googleAddedIxsFull rest).contains j := by
  apply contains_eq_of_mem_iff
  rw [mem_googleAddedIxsFull, mem_googleAddedIxsFull]
  simp only [List.length_cons, List.getD_cons_succ, Nat.add_sub_cancel]
  constructor
  · rintro (⟨h1, h2⟩ | ⟨h1, h2, h3⟩)
    · exact Or.inl ⟨by omega, h2⟩
    · cases j with
      | zero =>
        rw [List.getD_cons_zero, hk] at h3
        exact absurd h3 (by simp)
      | succ j' =>
        rw [List.getD_cons_succ] at h3
        exact Or.inr ⟨by omega, by omega, by simpa [Nat.add_sub_cancel] using h3⟩
  · rintro (⟨h1, h2⟩ | ⟨h1, h2, h3⟩)
    · exact Or.inl ⟨by omega, h2⟩
    · obtain ⟨j', rfl⟩ : ∃ j', j = j' + 1 := ⟨j - 1, by omega⟩
      refine Or.inr ⟨by omega, by omega, ?_⟩
      rw [List.getD_cons_succ]
      simpa [Nat.add_sub_cancel] using h3

theorem userLines_cons_unmanaged (l : String) (ls : List String)
    (hP : isGoogleMarkerLine l = false) :
    userLines (l :: ls) = l :: userLines ls := by
  have h0 : (googleAddedIxsFull (l :: ls)).contains 0 = false := by
    apply contains_eq_false_of_not_mem
    rw [mem_googleAddedIxsFull]
    rintro (⟨_, h2⟩ | ⟨h00, _⟩)
    · rw [List.getD_cons_zero, hP] at h2
      exact Bool.false_ne_true h2
    · exact Nat.lt_irrefl 0 h00
  rw [userLines_cons_keep l ls h0]
  congr 1
  unfold userLines
  refine congrArg (List.map _) (List.filter_congr ?_)
  intro i _
  simp only [contains_succ_of_head_not_marker l ls i hP]

theorem userLines_cons_managed_pair (m k : String) (rest : List String)
    (hm : isGoogleMarkerLine m = true) (hk : isGoogleMarkerLine k = false) :
    userLines (m :: k :: rest) = userLines rest := by
  have h0 : (googleAddedIxsFull (m :: k :: rest)).contains 0 = true := by
    apply contains_eq_true_of_mem
    rw [mem_googleAddedIxsFull]
    left
    refine ⟨by simp only [List.length_cons]; omega, ?_⟩
    rw [List.getD_cons_zero]
    exact hm
  rw [userLines_cons_drop _ _ h0]
  rw [show List.range (k :: rest).length = 0 :: (List.range rest.length).map Nat.succ from by
    rw [List.length_cons, List.range_succ_eq_map]]
  have h1 : (googleAddedIxsFull (m :: k :: rest)).contains 1 = true := by
    apply contains_eq_true_of_mem
    rw [mem_googleAddedIxsFull]
    right
    refine ⟨Nat.one_pos, by simp only [List.length_cons]; omega, ?_⟩
    simp only [Nat.sub_self, List.getD_cons_zero]
    exact hm
  rw [List.filter_cons_of_neg
    (by show ¬((!((googleAddedIxsFull (m :: k :: rest)).contains 1)) = true); rw [h1]; decide),
    List.filter_map, List.map_map]
  unfold userLines
  refine congr (congrArg List.map rfl) (List.filter_congr ?_)
  intro j _
  simp only [Function.comp_apply, Nat.succ_eq_add_one,
    contains_succ_succ_pair m k rest j hk]

/-- C3 counterexample: a file made of one managed pair whose stored key
line happens to begin with the marker text, followed by one unmanaged
line `"z\n"`.  The claim predicts the merge with an empty key list keeps
exactly the unmanaged line; the code instead drops everything, because
the marker-prefixed key line is itself treated as a marker and takes the
following line with it. -/
theorem WriteAuthorizedSshKeysFile_marker_chain_cex :
    renderFile [AkEntry.managed "# Added by Google X\n", AkEntry.unmanaged "z\n"] =
      ["# Added by Google\n", "# Added by Google X\n", "z\n"] ∧
    WriteAuthorizedSshKeysFile
      (some (renderFile [AkEntry.managed "# Added by Google X\n", AkEntry.unmanaged "z\n"]))
      [] = [] ∧
    unmanagedLines [AkEntry.managed "# Added by Google X\n", AkEntry.unmanaged "z\n"] =
      ["z\n"] := by
  decide

/-- C3 (amended): for an existing file made of unmanaged lines and managed
`(marker, key)` pairs in which no unmanaged line and no stored key begins
with the marker text and unmanaged lines are newline-terminated, the
merge yields exactly the unmanaged lines, unchanged and in order,
followed by one `(marker, key)` pair per new key, in order, with no old
managed pair remaining. -/
theorem WriteAuthorizedSshKeysFile_roundtrip (es : List AkEntry) (keys : List String)
    (hok : ∀ e ∈ es, entryOk e = true) :
    WriteAuthorizedSshKeysFile (some (renderFile es)) keys =
      unmanagedLines es ++
        keys.flatMap (fun kk => ["# Added by Google\n", EnsureTrailingNewline kk]) := by
  have huser : ∀ (es2 : List AkEntry), (∀ e ∈ es2, entryOk e = true) →
      userLines (renderFile es2) = unmanagedLines es2 := by
    intro es2
    induction es2 with
    | nil => intro _; rfl
    | cons e es' ih =>
      intro hok2
      have hok' : ∀ x ∈ es', entryOk x = true :=
        fun x hx => hok2 x (List.mem_cons_of_mem e hx)
      cases e with
      | unmanaged l =>
        have hOk := hok2 (AkEntry.unmanaged l) (List.mem_cons_self _ _)
        simp only [entryOk, Bool.and_eq_true, Bool.not_eq_true'] at hOk
        have hrender : renderFile (AkEntry.unmanaged l :: es') = l :: renderFile es' := rfl
        have hum : unmanagedLines (AkEntry.unmanaged l :: es') = l :: unmanagedLines es' := rfl
        rw [hrender, hum, userLines_cons_unmanaged l _ hOk.1, ih hok']
      | managed kk =>
        have hOk := hok2 (AkEntry.managed kk) (List.mem_cons_self _ _)
        simp only [entryOk, Bool.not_eq_true'] at hOk
        have hmarker : isGoogleMarkerLine "# Added by Google\n" = true := by decide
        have hrender : renderFile (AkEntry.managed kk :: es') =
            "# Added by Google\n" :: kk :: renderFile es' := rfl
        have hum : unmanagedLines (AkEntry.managed kk :: es') = unmanagedLines es' := rfl
        rw [hrender, hum, userLines_cons_managed_pair _ _ _ hmarker hOk, ih hok']
  have hmap : (unmanagedLines es).map EnsureTrailingNewline = unmanagedLines es := by
    have h1 : ∀ x ∈ unmanagedLines es, EnsureTrailingNewline x = x := by
      intro x hx
      rw [unmanagedLines, List.mem_filterMap] at hx
      obtain ⟨a, ha, hfa⟩ := hx
      cases a with
      | unmanaged l2 =>
        have hlx : l2 = x := by simpa using hfa
        subst hlx
        have hOk := hok _ ha
        simp only [entryOk, Bool.and_eq_true, beq_iff_eq] at hOk
        simp [EnsureTrailingNewline, hOk.2]
      | managed kk => simp at hfa
    calc (unmanagedLines es).map EnsureTrailingNewline
        = (unmanagedLines es).map id := List.map_congr_left (fun x hx => h1 x hx)
      _ = unmanagedLines es := List.map_id _
  unfold WriteAuthorizedSshKeysFile
  rw [Option.getD_some, huser es hok, hmap]

/-- C3 witness. -/
theorem WriteAuthorizedSshKeysFile_roundtrip_witness :
    (∀ e ∈ [AkEntry.unmanaged "x\n", AkEntry.managed "oldkey\n"], entryOk e = true) ∧
    WriteAuthorizedSshKeysFile
      (some (renderFile [AkEntry.unmanaged "x\n", AkEntry.managed "oldkey\n"])) ["newkey"] =
      unmanagedLines [AkEntry.unmanaged "x\n", AkEntry.managed "oldkey\n"] ++
        (["newkey"] : List String).flatMap
          (fun kk => ["# Added by Google\n", EnsureTrailingNewline kk]) :=
  ⟨by decide,
   WriteAuthorizedSshKeysFile_roundtrip [AkEntry.unmanaged "x\n", AkEntry.managed "oldkey\n"]
     ["newkey"] (by decide)⟩

theorem ensure_id_of_newline (l : String) (h : l.data.getLast? = some '\n') :
    EnsureTrailingNewline l = l := by
  unfold EnsureTrailingNewline
  rw [if_pos h]

theorem map_ensure_id (lines : List String) (h : ∀ l ∈ lines, l.data.getLast? = some '\n') :
    lines.map EnsureTrailingNewline = lines := by
  calc lines.map EnsureTrailingNewline
      = lines.map id := List.map_congr_left (fun l hl => ensure_id_of_newline l (h l hl))
    _ = lines := List.map_id _

theorem ensure_rule (user : String) :
    EnsureTrailingNewline (sudoerRuleLine user) = sudoerRuleLine user ++ "\n" := by
  have hne : ¬((sudoerRuleLine user).data.getLast? = some '\n') := by
    intro hlast
    rw [sudoerRuleLine, String.data_append, List.getLast?_append] at hlast
    have hsfx : (" ALL=NOPASSWD: ALL" : String).data.getLast? = some 'L' := by decide
    rw [hsfx] at hlast
    rw [show (some 'L').or user.data.getLast? = some 'L' from rfl] at hlast
    exact absurd hlast (by decide)
  unfold EnsureTrailingNewline
  rw [if_neg hne]

theorem literal_rule (user : String) :
    literalUserThenSpace user.data (sudoerRuleLine user ++ "\n").data = true := by
  apply (literal_iff _ _).mpr
  refine ⟨' ', ("ALL=NOPASSWD: ALL\n" : String).data, ?_, by decide⟩
  show (sudoerRuleLine user ++ "\n").data = user.data ++ ' ' :: ("ALL=NOPASSWD: ALL\n" : String).data
  rw [sudoerRuleLine, String.data_append, String.data_append, List.append_assoc]
  congr 1

theorem candidate_decomp (user : String) (lines : List String)
    (hnl : ∀ l ∈ lines, l.data.getLast? = some '\n') :
    sudoersCandidate user lines = lines ++ [sudoerRuleLine user ++ "\n"] := by
  unfold sudoersCandidate
  rw [List.map_append, map_ensure_id lines hnl]
  congr 1
  simp only [List.map_cons, List.map_nil]
  rw [ensure_rule]

/-- C4 counterexample: with the sudoers file already holding two rule
lines for `u`, two `MakeUserSudoer` calls leave both in place — the final
file has two rule lines for `u`, not exactly one. -/
theorem MakeUserSudoer_duplicate_rules_cex :
    (((MakeUserSudoer ⟨fun _ => true, false⟩ "u"
        (MakeUserSudoer ⟨fun _ => true, false⟩ "u"
          ⟨some ["u a\n", "u b\n"], false⟩).state).state.sudoers.getD []).filter
      (fun l => literalUserThenSpace "u".data l.data)).length = 2 ∧ (2 : Nat) ≠ 1 := by
  decide

/-- C4 (amended): for a username over the valid character set with no `.`
(so the regex test is a literal test), a present sudoers file whose lines
are newline-terminated, a free lock, an accepting policy checker and no
I/O error, two `MakeUserSudoer` calls yield exactly one rule line for the
user if none existed, and leave the preexisting count (possibly more
than one) unchanged otherwise. -/
theorem MakeUserSudoer_idempotent_count (env : SudoersEnv) (user : String) (lines : List String)
    (hchars : ∀ c ∈ user.data, c ∈ VALID_USERNAME_CHARS)
    (hnodot : '.' ∉ user.data)
    (hnl : ∀ l ∈ lines, l.data.getLast? = some '\n')
    (hvalid : ∀ c, env.isValidSudoersFile c = true)
    (hraise : env.openForWriteRaises = false) :
    (((MakeUserSudoer env user
        (MakeUserSudoer env user ⟨some lines, false⟩).state).state.sudoers.getD []).filter
      (fun l => literalUserThenSpace user.data l.data)).length =
    (if (lines.filter (fun l => literalUserThenSpace user.data l.data)).length = 0 then 1
     else (lines.filter (fun l => literalUserThenSpace user.data l.data)).length) := by
  have hfil : ∀ (ls : List String), IsUserSudoerInLines user ls =
      ls.filter (fun l => literalUserThenSpace user.data l.data) :=
    fun ls => List.filter_congr (fun l _ => reMatch_eq_literal user.data hnodot l.data)
  by_cases hc : (lines.filter (fun l => literalUserThenSpace user.data l.data)).length = 0
  · have hempty : lines.filter (fun l => literalUserThenSpace user.data l.data) = [] :=
      List.length_eq_zero.mp hc
    have hmem : IsUserSudoerInLines user lines = [] := by
      rw [hfil]
      exact hempty
    have h1 : (MakeUserSudoer env user ⟨some lines, false⟩).state =
        ⟨some (sudoersCandidate user lines), false⟩ := by
      simp [MakeUserSudoer, hmem, hvalid, hraise, LockSudoers]
    have hcand : sudoersCandidate user lines = lines ++ [sudoerRuleLine user ++ "\n"] :=
      candidate_decomp user lines hnl
    have hone : List.filter (fun l => literalUserThenSpace user.data l.data)
        [sudoerRuleLine user ++ "\n"] = [sudoerRuleLine user ++ "\n"] := by
      simp only [List.filter_cons, List.filter_nil, literal_rule user]
      simp
    have hmem2 : (IsUserSudoerInLines user (sudoersCandidate user lines)).isEmpty = false := by
      rw [hfil, hcand, List.filter_append, hempty, hone]
      rfl
    have h2 : (MakeUserSudoer env user ⟨some (sudoersCandidate user lines), false⟩).state =
        ⟨some (sudoersCandidate user lines), false⟩ := by
      simp [MakeUserSudoer, hmem2]
    rw [h1, h2, if_pos hc]
    show ((sudoersCandidate user lines).filter
      (fun l => literalUserThenSpace user.data l.data)).length = 1
    rw [hcand, List.filter_append, hempty, hone]
    rfl
  · have hne : lines.filter (fun l => literalUserThenSpace user.data l.data) ≠ [] := by
      intro h
      exact hc (by rw [h]; rfl)
    have hmem : (IsUserSudoerInLines user lines).isEmpty = false := by
      rw [hfil, List.isEmpty_eq_false]
      exact hne
    have h1 : (MakeUserSudoer env user ⟨some lines, false⟩).state = ⟨some lines, false⟩ := by
      simp [MakeUserSudoer, hmem]
    rw [h1, h1, if_neg hc]
    rfl

/-- C4 witness. -/
theorem MakeUserSudoer_idempotent_count_witness :
    (∀ c ∈ "alice".data, c ∈ VALID_USERNAME_CHARS) ∧ '.' ∉ "alice".data ∧
    (∀ l ∈ (["root ALL=(ALL) ALL\n"] : List String), l.data.getLast? = some '\n') ∧
    (∀ c, (SudoersEnv.mk (fun _ => true) false).isValidSudoersFile c = true) ∧
    (SudoersEnv.mk (fun _ => true) false).openForWriteRaises = false ∧
    (((MakeUserSudoer ⟨fun _ => true, false⟩ "alice"
        (MakeUserSudoer ⟨fun _ => true, false⟩ "alice"
          ⟨some ["root ALL=(ALL) ALL\n"], false⟩).state).state.sudoers.getD []).filter
      (fun l => literalUserThenSpace "alice".data l.data)).length =
    (if ((["root ALL=(ALL) ALL\n"] : List String).filter
        (fun l => literalUserThenSpace "alice".data l.data)).length = 0 then 1
     else ((["root ALL=(ALL) ALL\n"] : List String).filter
        (fun l => literalUserThenSpace "alice".data l.data)).length) :=
  ⟨by decide, by decide, by decide, fun _ => rfl, rfl,
   MakeUserSudoer_idempotent_count ⟨fun _ => true, false⟩ "alice" ["root ALL=(ALL) ALL\n"]
     (by decide) (by decide) (by decide) (fun _ => rfl) rfl⟩

/-- C9 witness. -/
theorem IsValidUsername_charset_witness :
    IsValidUsername "alice" = true ↔
      ((∀ c ∈ "alice".data, c ∈ VALID_USERNAME_CHARS) ∧ "alice".data.head? ≠ some '-') :=
  IsValidUsername_charset "alice"
